import Mathlib

/-!
Shallow embedding of the tcrshuffler repository
(`src/tcrshuffler/utils.py` and `src/tcrshuffler/core.py`).

Python strings are `List Char`, Python dictionaries are association lists in
insertion order, and the process-wide pseudo-random generator of the stdlib
`random` module is threaded explicitly as a `Nat` state.
-/

namespace TCRShuffler

/-- Modelled from the spec: the caller-seeded pseudo-random generator
("explicitly (re)seeded per invocation").  The Python `random` module is
external to the repository, so a linear congruential generator stands in for
the Mersenne twister; every randomized step consumes one draw from this
explicit state. -/
def rngNext (s : Nat) : Nat × Nat :=
  let t := (s * 1103515245 + 12345) % 2147483648
  (t, t)

/-! ### utils.label_cdr3_germline_vj_regions -/

/-- One iteration of the germline-V walk of `label_cdr3_germline_vj_regions`:
`for i, aa in enumerate(germline_v): if i >= len(cdr3): break; if aa == cdr3[i]: labels[i] = 'V'`.
The `break` is rendered as a guard, which is equivalent because the walk is a
pure skip for every later index. -/
def vStep (cdr3 germline_v : List Char) (ls : List Char) (i : Nat) : List Char :=
  if i < cdr3.length then
    if germline_v.getD i ' ' = cdr3.getD i ' ' then ls.set i 'V' else ls
  else ls

/-- The germline-V walk: all positions start as `'N'`, positions where the
CDR3 prefix equals `germline_v` become `'V'`. -/
def vWalk (cdr3 germline_v : List Char) : List Char :=
  (List.range germline_v.length).foldl (vStep cdr3 germline_v)
    (List.replicate cdr3.length 'N')

/-- One iteration of the germline-J walk:
`for j, aa in enumerate(reversed(germline_j)): if j >= len(cdr3): break;
if aa == cdr3[-(j+1)]: if labels[-(j+1)] == 'N': labels[-(j+1)] = 'J'`.
Since `len(labels) == len(cdr3)`, the Python index `-(j+1)` is
`cdr3.length - 1 - j`. -/
def jStep (cdr3 germline_j : List Char) (ls : List Char) (j : Nat) : List Char :=
  if j < cdr3.length then
    if germline_j.getD (germline_j.length - 1 - j) ' ' = cdr3.getD (cdr3.length - 1 - j) ' ' then
      if ls.getD (cdr3.length - 1 - j) ' ' = 'N' then ls.set (cdr3.length - 1 - j) 'J' else ls
    else ls
  else ls

/-- The germline-J walk over an existing label list. -/
def jWalk (cdr3 germline_j : List Char) (ls : List Char) : List Char :=
  (List.range germline_j.length).foldl (jStep cdr3 germline_j) ls

/-- `utils.label_cdr3_germline_vj_regions(cdr3, germline_v, germline_j)`. -/
def label_cdr3_germline_vj_regions (cdr3 germline_v germline_j : List Char) : List Char :=
  jWalk cdr3 germline_j (vWalk cdr3 germline_v)

/-! ### utils.best_d_alignment -/

/-- Length of the common prefix of two lists. -/
def commonLen : List Char → List Char → Nat
  | a :: as, b :: bs => if a = b then commonLen as bs + 1 else 0
  | _, _ => 0

/-- Modelled from the spec: `difflib.SequenceMatcher(None, core, d_seq)
.find_longest_match(0, len(core), 0, len(d_seq))` (Python stdlib, external to
the repository).  Per its documentation it returns the longest contiguous
matching block `(a, b, size)`; among maximal blocks the one starting earliest
in `core`, then earliest in `d_seq`.  The `autojunk` heuristic is inert here
because D segments are far shorter than 200 characters. -/
def findLongestMatch (core dseq : List Char) : Nat × Nat × Nat :=
  (List.range (core.length + 1)).foldl (fun best a =>
    (List.range (dseq.length + 1)).foldl (fun best b =>
      let s := commonLen (core.drop a) (dseq.drop b)
      if best.2.2 < s then (a, b, s) else best) best) (0, 0, 0)

/-- The match size `find_longest_match` reports for one D candidate
(`(name, seq)` pair of the `d_segments` dict). -/
def dScore (core : List Char) (nd : String × String) : Nat :=
  (findLongestMatch core nd.2.data).2.2

/-- The match start (in `core`) that `find_longest_match` reports for one D
candidate. -/
def dStart (core : List Char) (nd : String × String) : Nat :=
  (findLongestMatch core nd.2.data).1

/-- The slice `core = cdr3[min_v : len(cdr3) - min_j]`, including Python's
wrap-around of a negative stop index (`len(cdr3) < min_j`). -/
def coreSlice (cdr3 : List Char) (min_v min_j : Nat) : List Char :=
  let stop := if min_j ≤ cdr3.length then cdr3.length - min_j else 2 * cdr3.length - min_j
  (cdr3.take stop).drop min_v

/-- One step of the candidate loop of `best_d_alignment`:
`if match.size > best_score: best_score, best_match, best_d = match.size, match, d_seq`.
The accumulator is `(best_score, best_match.a, best_d)`. -/
def bStep (core : List Char) (acc : Nat × Nat × Option String) (nd : String × String) :
    Nat × Nat × Option String :=
  if acc.1 < dScore core nd then (dScore core nd, dStart core nd, some nd.2) else acc

/-- The candidate loop of `best_d_alignment` over the `d_segments` items in
insertion order, starting from `best_score = 0`, `best_d = None`. -/
def bestDFold (core : List Char) (d_segments : List (String × String)) :
    Nat × Nat × Option String :=
  d_segments.foldl (bStep core) (0, 0, none)

/-- The relabeling
`cdr3_source[:start] + "".join(['D' for x in cdr3_source[start:end]]) + cdr3_source[end:]`. -/
def relabelD (labels : List Char) (start stop : Nat) : List Char :=
  labels.take start ++ ((labels.drop start).take (stop - start)).map (fun _ => 'D') ++
    labels.drop stop

/-- `utils.best_d_alignment(cdr3, cdr3_source, d_segments, min_v, min_j)`.
Note the third result is the best candidate's amino-acid sequence
(`best_d = d_seq`), and that `best_match` is truthy exactly when
`best_score > 0`. -/
def best_d_alignment (cdr3 cdr3_source : List Char) (d_segments : List (String × String))
    (min_v min_j : Nat) : List Char × List Char × Option String :=
  let core := coreSlice cdr3 min_v min_j
  let b := bestDFold core d_segments
  if 0 < b.1 then
    (cdr3, relabelD cdr3_source (min_v + b.2.1) (min_v + b.2.1 + b.1), b.2.2)
  else
    (cdr3, cdr3_source, b.2.2)

/-! ### utils.choose_cutpoints_around_d -/

/-- The `before_d` transition set. -/
def before_d : List (Char × Char) := [('V', 'N'), ('N', 'D'), ('V', 'D'), ('V', 'J')]

/-- The `after_d` transition set. -/
def after_d : List (Char × Char) := [('D', 'N'), ('D', 'J'), ('N', 'J'), ('V', 'J')]

/-- `cuts_before = [i for i in range(1, len(label_string) - 1) if (label_string[i], label_string[i+1]) in before_d]`. -/
def cutsBefore (ls : List Char) : List Nat :=
  (List.range' 1 (ls.length - 2)).filter
    (fun i => before_d.contains (ls.getD i ' ', ls.getD (i + 1) ' '))

/-- `cuts_after = [i for i in range(len(label_string) - 2) if (label_string[i], label_string[i+1]) in after_d]`. -/
def cutsAfter (ls : List Char) : List Nat :=
  (List.range (ls.length - 2)).filter
    (fun i => after_d.contains (ls.getD i ' ', ls.getD (i + 1) ' '))

/-- `utils.choose_cutpoints_around_d(label_string)`, with the generator state
explicit.  `random.choice` is modelled as indexing by a fresh draw modulo the
list length; it is not called when either candidate list is empty. -/
def choose_cutpoints_around_d (ls : List Char) (rng : Nat) : Option (Nat × Nat) × Nat :=
  let cb := cutsBefore ls
  let ca := cutsAfter ls
  if cb = [] ∨ ca = [] then (none, rng)
  else
    let r1 := rngNext rng
    let r2 := rngNext r1.2
    (some (cb.getD (r1.1 % cb.length) 0, ca.getD (r2.1 % ca.length) 0), r2.2)

/-! ### Fragment extraction (core.shuffle lines 153-155) -/

/-- `v_part = cdr3[:cut1+1]`. -/
def v_part (cdr3 : List Char) (cut1 : Nat) : List Char := cdr3.take (cut1 + 1)

/-- `d_part = cdr3[cut1+1:cut2+1]`. -/
def d_part (cdr3 : List Char) (cut1 cut2 : Nat) : List Char :=
  (cdr3.take (cut2 + 1)).drop (cut1 + 1)

/-- `j_part = cdr3[cut2+1:]`. -/
def j_part (cdr3 : List Char) (cut2 : Nat) : List Char := cdr3.drop (cut2 + 1)

/-! ### core.shuffle -/

/-- A pandas cell of the input frame: either a Python `str` or some non-string
value (e.g. `NaN`), as tested by `isinstance(x, str)`. -/
inductive Cell where
  | str (s : String)
  | nonstr
deriving DecidableEq

/-- An input receptor row `(v, cdr3, j)` read from the caller's columns. -/
def RecT : Type := Cell × Cell × Cell

instance : DecidableEq RecT := by unfold RecT; infer_instance

/-- The fourth component of an error tuple.  In Python it is a plain string:
`"invalid_types"`, `f"missing_germline_{e}"` with the missing key, or the raw
label string from a cutpoint failure; the sum carries the same data. -/
inductive Reason where
  | invalidTypes
  | missingGermline (key : String)
  | cutpointFail (labels : List Char)
deriving DecidableEq

/-- An `error_cdr3` entry `(v, cdr3, j, reason)`. -/
structure ErrRec where
  v : Cell
  cdr3 : Cell
  j : Cell
  reason : Reason
deriving DecidableEq

/-- A `presuffled_receptors` entry (core.py lines 162-165). -/
structure PresufRow where
  v : String
  j : String
  germline_v : String
  germline_j : String
  cdr3 : String
  cdr3_source : String
  cut1 : Nat
  cut2 : Nat
  cut_cdr3 : String
  v_part : String
  d_part : String
  j_part : String
deriving DecidableEq

/-- The germline reference snapshot, already resolved at
`d[organism][chain]`: association lists from gene id to the `cdrs` field for
the V and J regions (insertion order, unique keys as in a Python dict). -/
structure Ref where
  vGenes : List (String × String)
  jGenes : List (String × String)
deriving DecidableEq

/-- `chain` configuration value; `"B"` runs the D-matching step. -/
inductive Chain where
  | A
  | B
deriving DecidableEq

/-- Python dict lookup `m[k]` on an association list: `none` is a `KeyError`. -/
def lookupA (l : List (String × String)) (k : String) : Option String :=
  (l.find? (fun p => p.1 = k)).map (fun p => p.2)

/-- Allele normalization: `if g.find("*") == -1: g = f"{g}*01"`. -/
def ensureAllele (g : String) : String :=
  if g.data.contains '*' then g else g ++ "*01"

/-- `record['cdrs'].split(";")[-1]`: the germline amino-acid string is the
last `;`-separated field. -/
def germOf (cdrs : String) : List Char :=
  ((cdrs.splitOn ";").getLastD "").data

/-- Outcome of one iteration of the per-receptor loop: an error tuple to
append, or the data pushed on success. -/
inductive RecOut where
  | fail (e : ErrRec)
  | succ (v : String) (d_gene : Option String) (j : String)
      (vp dp jp : String) (row : PresufRow)
deriving DecidableEq

/-- `true` on the success outcome. -/
def RecOut.isSucc : RecOut → Bool
  | .succ _ _ _ _ _ _ _ => true
  | .fail _ => false

/-- The closure environment of the per-receptor loop body in `core.shuffle`. -/
structure Params where
  ref : Ref
  dGenes : List (String × String)
  chain : Chain
  min_cut_v : Nat
  min_cut_j : Nat

/-- The body of `for v, cdr3, j in sequences * depth` in `core.shuffle`
(lines 116-165), with the generator state threaded explicitly. -/
def processRecord (P : Params) (rec : RecT) (rng : Nat) : RecOut × Nat :=
  match rec with
  | (.str v0, .str cdr3s, .str j0) =>
    let v := ensureAllele v0
    let j := ensureAllele j0
    match lookupA P.ref.vGenes v with
    | none => (.fail ⟨.str v, .str cdr3s, .str j, .missingGermline v⟩, rng)
    | some cdrsV =>
      match lookupA P.ref.jGenes j with
      | none => (.fail ⟨.str v, .str cdr3s, .str j, .missingGermline j⟩, rng)
      | some cdrsJ =>
        let gv := germOf cdrsV
        let gj := germOf cdrsJ
        let src0 := label_cdr3_germline_vj_regions cdr3s.data gv gj
        let t :=
          match P.chain with
          | .B => best_d_alignment cdr3s.data src0 P.dGenes P.min_cut_v P.min_cut_j
          | .A => (cdr3s.data, src0, none)
        match choose_cutpoints_around_d t.2.1 rng with
        | (none, rng1) => (.fail ⟨.str v, .str (String.mk t.1), .str j, .cutpointFail t.2.1⟩, rng1)
        | (some (cut1, cut2), rng1) =>
          let vp := v_part t.1 cut1
          let dp := d_part t.1 cut1 cut2
          let jp := j_part t.1 cut2
          let cutStr := String.mk (t.1.take (cut1 + 1)) ++ "--" ++
            String.mk (((t.1.take (cut2 + 1)).drop (cut1 + 1)).map Char.toLower) ++ "--" ++
            String.mk (t.1.drop (cut2 + 1))
          (.succ v t.2.2 j (String.mk vp) (String.mk dp) (String.mk jp)
            ⟨v, j, String.mk gv, String.mk gj, String.mk t.1, String.mk t.2.1,
              cut1, cut2, cutStr, String.mk vp, String.mk dp, String.mk jp⟩, rng1)
  | (fv, fc, fj) => (.fail ⟨fv, fc, fj, .invalidTypes⟩, rng)

/-- Whether a record is successfully processed.  Success never depends on the
generator state: the only random step, cutpoint choice, fails exactly when a
candidate list is empty. -/
def recordSucceeds (P : Params) (rec : RecT) : Bool :=
  ((processRecord P rec 0).1).isSucc

/-- The accumulator of the batch loop: the three fragment pools, the error
list, the diagnostic rows and the generator state. -/
structure EngSt where
  storeV : List (String × String)
  storeD : List (Option String × String)
  storeJ : List (String × String)
  errors : List ErrRec
  presuf : List PresufRow
  rng : Nat
deriving DecidableEq

/-- One iteration of the batch loop: run the body and append to the error
list or push one triple into each pool plus one diagnostic row. -/
def processOne (P : Params) (st : EngSt) (rec : RecT) : EngSt :=
  match processRecord P rec st.rng with
  | (.fail e, rng1) => { st with errors := st.errors ++ [e], rng := rng1 }
  | (.succ v d_gene j vp dp jp row, rng1) =>
    { storeV := st.storeV ++ [(v, vp)]
      storeD := st.storeD ++ [(d_gene, dp)]
      storeJ := st.storeJ ++ [(j, jp)]
      errors := st.errors
      presuf := st.presuf ++ [row]
      rng := rng1 }

/-- The whole batch loop over `sequences * depth`, starting from empty pools
and the freshly seeded generator. -/
def engineRun (P : Params) (seqs : List RecT) (seed : Nat) : EngSt :=
  seqs.foldl (processOne P) ⟨[], [], [], [], [], seed⟩

/-- Swap two positions of a list (no-op when an index is out of range). -/
def swapIdx {α : Type} (l : List α) (i j : Nat) : List α :=
  match l.get? i, l.get? j with
  | some a, some b => (l.set i b).set j a
  | _, _ => l

/-- One step of the Fisher-Yates walk of `random.shuffle`: at position
`i ≥ 1`, draw `j ≤ i` and swap. -/
def fyStep {α : Type} (p : List α × Nat) (i : Nat) : List α × Nat :=
  if i = 0 then p
  else
    let r := rngNext p.2
    (swapIdx p.1 i (r.1 % (i + 1)), r.2)

/-- Modelled from the spec: `random.shuffle` (Python stdlib, external to the
repository) permutes the list in place by a backward Fisher-Yates walk
driven by the caller-seeded generator. -/
def fyShuffle {α : Type} (l : List α) (rng : Nat) : List α × Nat :=
  ((List.range l.length).reverse).foldl fyStep (l, rng)

/-- `zip` over three lists, as in
`for (V, n), (D, dseg), (J, c) in zip(store_v, store_d, store_j)`. -/
def zip3With {α β γ δ : Type} (f : α → β → γ → δ) :
    List α → List β → List γ → List δ
  | a :: as, b :: bs, c :: cs => f a b c :: zip3With f as bs cs
  | _, _, _ => []

/-- One output row `(V, n + dseg + c, J, (n, dseg, c))` (core.py line 188):
gene ids come from the V and J pool entries, the D pool's gene id is
discarded. -/
def buildJunction (a : String × String) (b : Option String × String)
    (c : String × String) : String × String × String × (String × String × String) :=
  (a.1, a.2 ++ b.2 ++ c.2, c.1, (a.2, b.2, c.2))

/-- The three possible results of `core.shuffle`. -/
inductive ShuffleOut where
  | errs (l : List ErrRec)
  | presuffled (l : List PresufRow)
  | shuffled (l : List (String × String × String × (String × String × String)))
deriving DecidableEq

/-- `core.shuffle`, with the reference snapshot passed in (loading it is
external I/O) and the generator explicit.  The division
`failure_rate = len(error_cdr3) / (len(tcrs) * depth)` raises
`ZeroDivisionError` before any output mode is selected when the denominator
is zero. -/
def shuffle (tcrs : List RecT) (chain : Chain) (ref : Ref)
    (dGenes : List (String × String)) (min_cut_v min_cut_j depth random_seed : Nat)
    (return_presuffled return_errors : Bool) : Except String ShuffleOut :=
  let P : Params := ⟨ref, dGenes, chain, min_cut_v, min_cut_j⟩
  let seqs := (List.replicate depth tcrs).flatten
  let st := engineRun P seqs random_seed
  if tcrs.length * depth = 0 then .error "ZeroDivisionError"
  else if return_errors then .ok (.errs st.errors)
  else if return_presuffled then .ok (.presuffled st.presuf)
  else
    let p1 := fyShuffle st.storeV st.rng
    let p2 := fyShuffle st.storeD p1.2
    let p3 := fyShuffle st.storeJ p2.2
    .ok (.shuffled (zip3With buildJunction p1.1 p2.1 p3.1))

/-! ### Helper lemmas -/

/-- `getD` of an in-range index is an element of the list. -/
lemma getD_mem {α : Type} : ∀ (l : List α) (n : Nat) (d : α), n < l.length → l.getD n d ∈ l := by
  intro l
  induction l with
  | nil => intro n d h; simp at h
  | cons a as ih =>
    intro n d h
    cases n with
    | zero => simp [List.getD]
    | succ m =>
      have hm : m < as.length := by simpa using Nat.lt_of_succ_lt_succ h
      have := ih m d hm
      simp only [List.getD_cons_succ]
      exact List.mem_cons_of_mem _ this

/-- `List.set` at one index leaves `getD` at a different index unchanged. -/
lemma getD_set_ne {α : Type} :
    ∀ (l : List α) (i j : Nat) (x d : α), i ≠ j → (l.set i x).getD j d = l.getD j d := by
  intro l
  induction l with
  | nil => intro i j x d _; simp
  | cons a as ih =>
    intro i j x d hij
    cases i with
    | zero =>
      cases j with
      | zero => exact absurd rfl hij
      | succ m => simp [List.getD]
    | succ n =>
      cases j with
      | zero => simp [List.getD]
      | succ m =>
        simp only [List.set_cons_succ, List.getD_cons_succ]
        exact ih n m x d (fun h => hij (by rw [h]))

/-! ### C1: fragment reconstruction -/

/-- C1 counterexample: the claim that `v_part + d_part + j_part == cdr3` holds
for every cutpoint pair chosen by the selector, including `cut2 <= cut1`, is
false.  For the CDR3 `"ABCDEFG"` with germline V `"XXXXE"` and germline J
`"BZZZZZ"` the pipeline labels it `"NJNNVNN"` (unchanged by D matching), the
selector returns `(cut1, cut2) = (4, 0)`, and the three fragments concatenate
to `"ABCDEBCDEFG" ≠ "ABCDEFG"`. -/
theorem claim1_counterexample :
    (best_d_alignment "ABCDEFG".data
        (label_cdr3_germline_vj_regions "ABCDEFG".data "XXXXE".data "BZZZZZ".data)
        [("TRBD1*01", "GGG")] 4 3).2.1 = "NJNNVNN".data ∧
    (choose_cutpoints_around_d "NJNNVNN".data 1).1 = some (4, 0) ∧
    v_part "ABCDEFG".data 4 ++ d_part "ABCDEFG".data 4 0 ++ j_part "ABCDEFG".data 0 ≠
      "ABCDEFG".data := by
  decide

/-- C1 (amended): the extracted fragments `v_part = cdr3[:cut1+1]`,
`d_part = cdr3[cut1+1:cut2+1]`, `j_part = cdr3[cut2+1:]` reconstruct `cdr3`
whenever `cut1 ≤ cut2`; when the selector returns `cut2 < cut1` (which it may,
since no ordering is enforced) the concatenation need not equal `cdr3`. -/
theorem claim1_reconstruction_of_ordered_cuts (cdr3 : List Char) (cut1 cut2 : Nat)
    (h : cut1 ≤ cut2) :
    v_part cdr3 cut1 ++ d_part cdr3 cut1 cut2 ++ j_part cdr3 cut2 = cdr3 := by
  unfold v_part d_part j_part
  have h1 : (cdr3.take (cut2 + 1)).take (cut1 + 1) = cdr3.take (cut1 + 1) := by
    rw [List.take_take]
    congr 1
    omega
  rw [← h1, List.take_append_drop, List.take_append_drop]

/-- Witness for C1 (amended) at `cdr3 = "CASSSHAGGNTEAFF"`, `cut1 = 3`,
`cut2 = 10`. -/
theorem claim1_witness :
    3 ≤ 10 ∧
    v_part "CASSSHAGGNTEAFF".data 3 ++ d_part "CASSSHAGGNTEAFF".data 3 10 ++
      j_part "CASSSHAGGNTEAFF".data 10 = "CASSSHAGGNTEAFF".data :=
  ⟨by decide, claim1_reconstruction_of_ordered_cuts "CASSSHAGGNTEAFF".data 3 10 (by decide)⟩

/-! ### C4: no positive match leaves labels unchanged -/

/-- When every candidate scores zero, the candidate loop never updates its
accumulator. -/
lemma bestDFold_of_all_zero (core : List Char) (l : List (String × String))
    (h : ∀ nd ∈ l, dScore core nd = 0) : bestDFold core l = (0, 0, none) := by
  unfold bestDFold
  suffices hgen : ∀ l' : List (String × String), (∀ nd ∈ l', dScore core nd = 0) →
      ∀ acc : Nat × Nat × Option String, l'.foldl (bStep core) acc = acc by
    exact hgen l h _
  intro l'
  induction l' with
  | nil => intro _ acc; rfl
  | cons nd rest ih =>
    intro hz acc
    have h0 : dScore core nd = 0 := hz nd (List.mem_cons_self _ _)
    have hstep : bStep core acc nd = acc := by
      unfold bStep
      rw [h0]
      simp
    rw [List.foldl_cons, hstep]
    exact ih (fun x hx => hz x (List.mem_cons_of_mem _ hx)) acc

/-- C4: if no D candidate yields a positive-length longest common substring
with `core = cdr3[min_v : len(cdr3)-min_j]`, then `best_d_alignment` returns
the label string unchanged and `None` as the matched gene. -/
theorem claim4_no_match_unchanged (cdr3 cdr3_source : List Char)
    (d_segments : List (String × String)) (min_v min_j : Nat)
    (h : ∀ nd ∈ d_segments, dScore (coreSlice cdr3 min_v min_j) nd = 0) :
    best_d_alignment cdr3 cdr3_source d_segments min_v min_j = (cdr3, cdr3_source, none) := by
  simp only [best_d_alignment]
  rw [bestDFold_of_all_zero _ _ h]
  simp

/-- Witness for C4: for `cdr3 = "CASSGTEAFF"` the core is `"GTE"`, which
shares no substring with the candidate `"WWW"`. -/
theorem claim4_witness :
    (∀ nd ∈ [("TRBD1*01", "WWW")], dScore (coreSlice "CASSGTEAFF".data 4 3) nd = 0) ∧
    best_d_alignment "CASSGTEAFF".data "NNNNNNNNNN".data [("TRBD1*01", "WWW")] 4 3 =
      ("CASSGTEAFF".data, "NNNNNNNNNN".data, none) :=
  ⟨by decide, claim4_no_match_unchanged "CASSGTEAFF".data "NNNNNNNNNN".data
    [("TRBD1*01", "WWW")] 4 3 (by decide)⟩

/-! ### C2: cutpoint selection -/

/-- C2: `choose_cutpoints_around_d` returns nothing exactly when either
candidate set is empty, where the `cut1` candidates are the indices
`i ∈ [1, len-2]` whose adjacent label pair is in `before_d` and the `cut2`
candidates are the indices `i ∈ [0, len-3]` whose adjacent pair is in
`after_d` (precisely `cutsBefore`/`cutsAfter`); otherwise it returns one
index drawn from each set.  In particular it returns nothing on the all-`N`
string of length 15 and a pair from the two non-empty candidate sets on
`"VVVVNNNDDDDJJJJ"`. -/
theorem claim2_cutpoint_selection (ls : List Char) (rng : Nat) :
    ((choose_cutpoints_around_d ls rng).1 = none ↔
      cutsBefore ls = [] ∨ cutsAfter ls = []) ∧
    (∀ c1 c2, (choose_cutpoints_around_d ls rng).1 = some (c1, c2) →
      c1 ∈ cutsBefore ls ∧ c2 ∈ cutsAfter ls) ∧
    (choose_cutpoints_around_d (List.replicate 15 'N') rng).1 = none ∧
    (∃ c1 c2, (choose_cutpoints_around_d "VVVVNNNDDDDJJJJ".data rng).1 = some (c1, c2) ∧
      c1 ∈ cutsBefore "VVVVNNNDDDDJJJJ".data ∧ c2 ∈ cutsAfter "VVVVNNNDDDDJJJJ".data) := by
  have main : ∀ (ms : List Char) (r : Nat),
      ((choose_cutpoints_around_d ms r).1 = none ↔
        cutsBefore ms = [] ∨ cutsAfter ms = []) ∧
      (∀ c1 c2, (choose_cutpoints_around_d ms r).1 = some (c1, c2) →
        c1 ∈ cutsBefore ms ∧ c2 ∈ cutsAfter ms) := by
    intro ms r
    by_cases hE : cutsBefore ms = [] ∨ cutsAfter ms = []
    · constructor
      · simp [choose_cutpoints_around_d, hE]
      · intro c1 c2 hc
        simp [choose_cutpoints_around_d, hE] at hc
    · have hb : cutsBefore ms ≠ [] := fun hh => hE (Or.inl hh)
      have ha : cutsAfter ms ≠ [] := fun hh => hE (Or.inr hh)
      have hbl : 0 < (cutsBefore ms).length := List.length_pos.mpr hb
      have hal : 0 < (cutsAfter ms).length := List.length_pos.mpr ha
      constructor
      · simp [choose_cutpoints_around_d, hE]
      · intro c1 c2 hc
        simp only [choose_cutpoints_around_d, if_neg hE, Option.some.injEq,
          Prod.mk.injEq] at hc
        obtain ⟨h1, h2⟩ := hc
        subst h1
        subst h2
        exact ⟨getD_mem _ _ _ (Nat.mod_lt _ hbl), getD_mem _ _ _ (Nat.mod_lt _ hal)⟩
  refine ⟨(main ls rng).1, (main ls rng).2, ?_, ?_⟩
  · have hb : cutsBefore (List.replicate 15 'N') = [] := by decide
    exact (main _ rng).1.mpr (Or.inl hb)
  · have hE : ¬(cutsBefore "VVVVNNNDDDDJJJJ".data = [] ∨
        cutsAfter "VVVVNNNDDDDJJJJ".data = []) := by decide
    rcases hc : (choose_cutpoints_around_d "VVVVNNNDDDDJJJJ".data rng).1 with _ | ⟨c1, c2⟩
    · exact absurd ((main _ rng).1.mp hc) hE
    · obtain ⟨hm1, hm2⟩ := (main _ rng).2 c1 c2 hc
      exact ⟨c1, c2, rfl, hm1, hm2⟩

/-- Witness for C2, instantiated at `"VVVVNNNDDDDJJJJ"` and seed 1. -/
theorem claim2_witness :
    ((choose_cutpoints_around_d "VVVVNNNDDDDJJJJ".data 1).1 = none ↔
      cutsBefore "VVVVNNNDDDDJJJJ".data = [] ∨ cutsAfter "VVVVNNNDDDDJJJJ".data = []) ∧
    (∀ c1 c2, (choose_cutpoints_around_d "VVVVNNNDDDDJJJJ".data 1).1 = some (c1, c2) →
      c1 ∈ cutsBefore "VVVVNNNDDDDJJJJ".data ∧ c2 ∈ cutsAfter "VVVVNNNDDDDJJJJ".data) ∧
    (choose_cutpoints_around_d (List.replicate 15 'N') 1).1 = none ∧
    (∃ c1 c2, (choose_cutpoints_around_d "VVVVNNNDDDDJJJJ".data 1).1 = some (c1, c2) ∧
      c1 ∈ cutsBefore "VVVVNNNDDDDJJJJ".data ∧ c2 ∈ cutsAfter "VVVVNNNDDDDJJJJ".data) :=
  claim2_cutpoint_selection "VVVVNNNDDDDJJJJ".data 1

/-! ### C5: label precedence -/

/-- The germline-J walk never changes a position that currently holds `'V'`:
each step writes `'J'` only where the current label is still `'N'`. -/
lemma jWalk_preserves_V (cdr3 germline_j : List Char) (i : Nat) :
    ∀ ls : List Char, ls.getD i ' ' = 'V' → (jWalk cdr3 germline_j ls).getD i ' ' = 'V' := by
  unfold jWalk
  induction List.range germline_j.length with
  | nil => intro ls h; exact h
  | cons k rest ih =>
    intro ls h
    rw [List.foldl_cons]
    apply ih
    unfold jStep
    by_cases h1 : k < cdr3.length
    · rw [if_pos h1]
      by_cases h2 : germline_j.getD (germline_j.length - 1 - k) ' ' =
          cdr3.getD (cdr3.length - 1 - k) ' '
      · rw [if_pos h2]
        by_cases h3 : ls.getD (cdr3.length - 1 - k) ' ' = 'N'
        · rw [if_pos h3]
          have hne : cdr3.length - 1 - k ≠ i := by
            intro he
            rw [he] at h3
            rw [h] at h3
            exact absurd h3 (by decide)
          rw [getD_set_ne _ _ _ _ _ hne]
          exact h
        · rw [if_neg h3]; exact h
      · rw [if_neg h2]; exact h
    · rw [if_neg h1]; exact h

/-- C5: a position labeled `'V'` by the germline-V walk is never relabeled
`'J'` by the germline-J walk (the final label there is still `'V'`), while
the D relabeling of `best_d_alignment` overwrites every position inside the
matched span with `'D'`, whatever its previous label. -/
theorem claim5_label_precedence :
    (∀ (cdr3 germline_v germline_j : List Char) (i : Nat),
      (vWalk cdr3 germline_v).getD i ' ' = 'V' →
      (label_cdr3_germline_vj_regions cdr3 germline_v germline_j).getD i ' ' = 'V') ∧
    (∀ (labels : List Char) (start stop i : Nat), start ≤ i → i < stop →
      i < labels.length → (relabelD labels start stop).getD i ' ' = 'D') := by
  constructor
  · intro cdr3 gv gj i h
    exact jWalk_preserves_V cdr3 gj i _ h
  · intro labels start stop i h1 h2 h3
    have hstart : start < labels.length := Nat.lt_of_le_of_lt h1 h3
    unfold relabelD
    have hlen1 : (labels.take start).length = start := by
      rw [List.length_take]
      omega
    have hmlen : i - start <
        (((labels.drop start).take (stop - start)).map (fun _ => 'D')).length := by
      simp only [List.length_map, List.length_take, List.length_drop]
      omega
    have houter : i < (labels.take start ++
        ((labels.drop start).take (stop - start)).map (fun _ => 'D')).length := by
      rw [List.length_append, hlen1]
      omega
    rw [List.getD_append _ _ _ _ houter,
      List.getD_append_right _ _ _ _ (by rw [hlen1]; exact h1), hlen1,
      List.getD_eq_getElem _ _ hmlen, List.getElem_map]

/-- Witness for C5: position 0 of `"CASSSHAGGNTEAFF"` is V-labeled and stays
`'V'` after the J walk; position 5 of an all-`N` label string of length 10
lies in the relabeled span `[4, 7)` and becomes `'D'`. -/
theorem claim5_witness :
    ((vWalk "CASSSHAGGNTEAFF".data "CASS".data).getD 0 ' ' = 'V' ∧
      (label_cdr3_germline_vj_regions "CASSSHAGGNTEAFF".data "CASS".data
        "EAFF".data).getD 0 ' ' = 'V') ∧
    (4 ≤ 5 ∧ 5 < 7 ∧ 5 < "NNNNNNNNNN".data.length ∧
      (relabelD "NNNNNNNNNN".data 4 7).getD 5 ' ' = 'D') :=
  ⟨⟨by decide, claim5_label_precedence.1 "CASSSHAGGNTEAFF".data "CASS".data "EAFF".data 0
      (by decide)⟩,
   by decide, by decide, by decide,
   claim5_label_precedence.2 "NNNNNNNNNN".data 4 7 5 (by decide) (by decide) (by decide)⟩

/-! ### C3: best D match -/

/-- The maximal `find_longest_match` size over the candidate list. -/
def maxDScore (core : List Char) (l : List (String × String)) : Nat :=
  l.foldr (fun nd m => max (dScore core nd) m) 0

lemma maxDScore_cons (core : List Char) (nd : String × String)
    (l : List (String × String)) :
    maxDScore core (nd :: l) = max (dScore core nd) (maxDScore core l) := rfl

/-- Recursive characterization of the candidate loop: the leftmost candidate
attaining the maximal positive score, or `(0, 0, none)` when every score is
zero. -/
def bestSpec (core : List Char) : List (String × String) → Nat × Nat × Option String
  | [] => (0, 0, none)
  | nd :: rest =>
    if (bestSpec core rest).1 ≤ dScore core nd then
      (if 0 < dScore core nd then (dScore core nd, dStart core nd, some nd.2)
       else (0, 0, none))
    else bestSpec core rest

lemma bestSpec_fst (core : List Char) :
    ∀ l : List (String × String), (bestSpec core l).1 = maxDScore core l := by
  intro l
  induction l with
  | nil => rfl
  | cons nd rest ih =>
    rw [maxDScore_cons]
    simp only [bestSpec]
    by_cases h2 : (bestSpec core rest).1 ≤ dScore core nd
    · rw [if_pos h2]
      rw [ih] at h2
      by_cases h3 : 0 < dScore core nd
      · rw [if_pos h3]
        show dScore core nd = max (dScore core nd) (maxDScore core rest)
        omega
      · rw [if_neg h3]
        show 0 = max (dScore core nd) (maxDScore core rest)
        omega
    · rw [if_neg h2, ih]
      rw [ih] at h2
      omega

lemma bestSpec_eq_zero (core : List Char) :
    ∀ l : List (String × String), (bestSpec core l).1 = 0 → bestSpec core l = (0, 0, none) := by
  intro l
  induction l with
  | nil => intro _; rfl
  | cons nd rest ih =>
    intro h0
    simp only [bestSpec] at h0 ⊢
    by_cases h2 : (bestSpec core rest).1 ≤ dScore core nd
    · rw [if_pos h2] at h0 ⊢
      by_cases h3 : 0 < dScore core nd
      · rw [if_pos h3] at h0
        exact absurd h0 (by omega)
      · rw [if_neg h3]
    · rw [if_neg h2] at h0 ⊢
      exact ih h0

/-- The candidate loop from an arbitrary accumulator: the accumulator is
replaced exactly when the list holds a strictly better score, and then by the
leftmost maximal candidate (`best_score < match.size` is strict, so the first
encountered candidate wins ties). -/
lemma foldl_bStep_eq (core : List Char) :
    ∀ (l : List (String × String)) (acc : Nat × Nat × Option String),
      l.foldl (bStep core) acc =
        if acc.1 < (bestSpec core l).1 then bestSpec core l else acc := by
  intro l
  induction l with
  | nil =>
    intro acc
    simp [bestSpec]
  | cons nd rest ih =>
    intro acc
    rw [List.foldl_cons, ih]
    by_cases h2 : (bestSpec core rest).1 ≤ dScore core nd
    · by_cases h3 : 0 < dScore core nd
      · have hcons : bestSpec core (nd :: rest) =
            (dScore core nd, dStart core nd, some nd.2) := by
          simp only [bestSpec]
          rw [if_pos h2, if_pos h3]
        rw [hcons]
        by_cases h1 : acc.1 < dScore core nd
        · have hstep : bStep core acc nd = (dScore core nd, dStart core nd, some nd.2) := by
            unfold bStep
            rw [if_pos h1]
          rw [hstep, if_neg (Nat.not_lt.mpr h2), if_pos h1]
        · have hstep : bStep core acc nd = acc := by
            unfold bStep
            rw [if_neg h1]
          rw [hstep, if_neg (show ¬acc.1 < (bestSpec core rest).1 by omega),
            if_neg (show ¬acc.1 < dScore core nd from h1)]
      · have hs : dScore core nd = 0 := by omega
        have hcons : bestSpec core (nd :: rest) = (0, 0, none) := by
          simp only [bestSpec]
          rw [if_pos h2, if_neg h3]
        rw [hcons]
        have hstep : bStep core acc nd = acc := by
          unfold bStep
          rw [hs]
          simp
        have hBr : (bestSpec core rest).1 = 0 := by omega
        rw [hstep, if_neg (show ¬acc.1 < (bestSpec core rest).1 by omega),
          if_neg (Nat.not_lt_zero acc.1)]
    · have hcons : bestSpec core (nd :: rest) = bestSpec core rest := by
        simp only [bestSpec]
        rw [if_neg h2]
      rw [hcons]
      by_cases h1 : acc.1 < dScore core nd
      · have hstep : bStep core acc nd = (dScore core nd, dStart core nd, some nd.2) := by
          unfold bStep
          rw [if_pos h1]
        rw [hstep, if_pos (Nat.lt_of_not_le h2),
          if_pos (Nat.lt_trans h1 (Nat.lt_of_not_le h2))]
      · have hstep : bStep core acc nd = acc := by
          unfold bStep
          rw [if_neg h1]
        rw [hstep]

lemma bestDFold_eq_bestSpec (core : List Char) (l : List (String × String)) :
    bestDFold core l = bestSpec core l := by
  unfold bestDFold
  rw [foldl_bStep_eq]
  by_cases h : 0 < (bestSpec core l).1
  · rw [if_pos (show ((0, 0, none) : Nat × Nat × Option String).1 < (bestSpec core l).1 from h)]
  · have h0 : (bestSpec core l).1 = 0 := by omega
    rw [if_neg (show ¬((0, 0, none) : Nat × Nat × Option String).1 < (bestSpec core l).1 by
        exact fun hc => h hc), bestSpec_eq_zero core l h0]

lemma dScore_le_maxDScore (core : List Char) :
    ∀ (l : List (String × String)) (nd : String × String), nd ∈ l →
      dScore core nd ≤ maxDScore core l := by
  intro l
  induction l with
  | nil => intro nd h; simp at h
  | cons a rest ih =>
    intro nd h
    rw [maxDScore_cons]
    rcases List.mem_cons.mp h with h | h
    · subst h
      exact Nat.le_max_left _ _
    · exact Nat.le_trans (ih nd h) (Nat.le_max_right _ _)

/-- When some candidate scores positively, the loop result is the first
candidate (in dict insertion order) attaining the maximal score. -/
lemma bestSpec_first_max (core : List Char) :
    ∀ l : List (String × String), 0 < maxDScore core l →
      ∃ nd, l.find? (fun p => maxDScore core l ≤ dScore core p) = some nd ∧
        dScore core nd = maxDScore core l ∧
        bestSpec core l = (dScore core nd, dStart core nd, some nd.2) := by
  intro l
  induction l with
  | nil => intro h; exact absurd h (by simp [maxDScore])
  | cons a rest ih =>
    intro h
    by_cases hs : maxDScore core (a :: rest) ≤ dScore core a
    · have hle : dScore core a ≤ maxDScore core (a :: rest) :=
        dScore_le_maxDScore core _ a (List.mem_cons_self a rest)
      have heq : dScore core a = maxDScore core (a :: rest) := Nat.le_antisymm hle hs
      refine ⟨a, ?_, heq, ?_⟩
      · exact List.find?_cons_of_pos rest (by simpa using hs)
      · have hBr : (bestSpec core rest).1 ≤ dScore core a := by
          rw [bestSpec_fst]
          rw [maxDScore_cons] at hs
          omega
        have hpos : 0 < dScore core a := by omega
        simp only [bestSpec]
        rw [if_pos hBr, if_pos hpos]
    · have hmax : maxDScore core (a :: rest) = maxDScore core rest := by
        rw [maxDScore_cons] at hs ⊢
        omega
      obtain ⟨nd, hfind, heq, hspec⟩ := ih (by omega)
      refine ⟨nd, ?_, ?_, ?_⟩
      · rw [List.find?_cons_of_neg rest (by simpa using hs), hmax]
        exact hfind
      · rw [hmax]
        exact heq
      · have hBr : ¬(bestSpec core rest).1 ≤ dScore core a := by
          rw [bestSpec_fst]
          omega
        simp only [bestSpec]
        rw [if_neg hBr]
        exact hspec

/-- C3 counterexample: the claim that the matched-gene result of
`best_d_alignment` is a gene id (a key of `d_segments`) is false: the code
returns the candidate's amino-acid sequence (`best_d = d_seq`).  With
`d_segments = {"TRBD1*01": "GTE"}` and `cdr3 = "CASSGTEAFF"` (core `"GTE"`),
the result is `some "GTE"`, which is none of the keys. -/
theorem claim3_counterexample :
    (best_d_alignment "CASSGTEAFF".data "NNNNNNNNNN".data [("TRBD1*01", "GTE")] 4 3).2.2 =
      some "GTE" ∧
    ∀ p ∈ [("TRBD1*01", "GTE")], p.1 ≠ "GTE" := by decide

/-- C3 (amended): when some candidate has a positive-length longest
contiguous common substring with `core = cdr3[min_v : len(cdr3)-min_j]`, the
matched-gene result of `best_d_alignment` is the amino-acid *sequence* (the
dict value, not the gene id) of the first candidate, in reference insertion
order, attaining the maximal substring length (ties broken by first
encountered, since the comparison is strict), and the matched span offset by
`min_v` is relabeled `D` in the returned label string. -/
theorem claim3_best_d_by_sequence (cdr3 cdr3_source : List Char)
    (d_segments : List (String × String)) (min_v min_j : Nat)
    (h : ∃ nd ∈ d_segments, 0 < dScore (coreSlice cdr3 min_v min_j) nd) :
    ∃ nd, d_segments.find?
        (fun p => maxDScore (coreSlice cdr3 min_v min_j) d_segments ≤
          dScore (coreSlice cdr3 min_v min_j) p) = some nd ∧
      dScore (coreSlice cdr3 min_v min_j) nd =
        maxDScore (coreSlice cdr3 min_v min_j) d_segments ∧
      best_d_alignment cdr3 cdr3_source d_segments min_v min_j =
        (cdr3,
         relabelD cdr3_source (min_v + dStart (coreSlice cdr3 min_v min_j) nd)
           (min_v + dStart (coreSlice cdr3 min_v min_j) nd +
             dScore (coreSlice cdr3 min_v min_j) nd),
         some nd.2) := by
  obtain ⟨nd0, hmem, hpos⟩ := h
  have hM : 0 < maxDScore (coreSlice cdr3 min_v min_j) d_segments :=
    Nat.lt_of_lt_of_le hpos (dScore_le_maxDScore _ _ _ hmem)
  obtain ⟨nd, hfind, heq, hspec⟩ := bestSpec_first_max _ _ hM
  refine ⟨nd, hfind, heq, ?_⟩
  simp only [best_d_alignment]
  rw [bestDFold_eq_bestSpec, hspec]
  rw [if_pos (show (0 : Nat) < dScore (coreSlice cdr3 min_v min_j) nd by omega)]

/-- Witness for C3 (amended) at `cdr3 = "CASSGTEAFF"`,
`d_segments = [("TRBD1*01", "GTE")]`. -/
theorem claim3_witness :
    (∃ nd ∈ [("TRBD1*01", "GTE")], 0 < dScore (coreSlice "CASSGTEAFF".data 4 3) nd) ∧
    (∃ nd, [("TRBD1*01", "GTE")].find?
        (fun p => maxDScore (coreSlice "CASSGTEAFF".data 4 3) [("TRBD1*01", "GTE")] ≤
          dScore (coreSlice "CASSGTEAFF".data 4 3) p) = some nd ∧
      dScore (coreSlice "CASSGTEAFF".data 4 3) nd =
        maxDScore (coreSlice "CASSGTEAFF".data 4 3) [("TRBD1*01", "GTE")] ∧
      best_d_alignment "CASSGTEAFF".data "NNNNNNNNNN".data [("TRBD1*01", "GTE")] 4 3 =
        ("CASSGTEAFF".data,
         relabelD "NNNNNNNNNN".data (4 + dStart (coreSlice "CASSGTEAFF".data 4 3) nd)
           (4 + dStart (coreSlice "CASSGTEAFF".data 4 3) nd +
             dScore (coreSlice "CASSGTEAFF".data 4 3) nd),
         some nd.2)) :=
  ⟨by decide, claim3_best_d_by_sequence "CASSGTEAFF".data "NNNNNNNNNN".data
    [("TRBD1*01", "GTE")] 4 3 (by decide)⟩

/-! ### C6: pool-size invariant -/

/-- The first component of `choose_cutpoints_around_d` does not depend on the
generator state when it is `none`: the failure condition is emptiness of a
candidate list. -/
lemma choose_fst_none_iff (ls : List Char) (rng : Nat) :
    (choose_cutpoints_around_d ls rng).1 = none ↔
      cutsBefore ls = [] ∨ cutsAfter ls = [] := by
  by_cases hE : cutsBefore ls = [] ∨ cutsAfter ls = []
  · simp [choose_cutpoints_around_d, hE]
  · simp [choose_cutpoints_around_d, hE]

/-- Whether a record is processed successfully does not depend on the
generator state: every branch condition of the loop body is generator-free
(the cutpoint step fails exactly when a candidate list is empty). -/
lemma processRecord_isSucc_rng (P : Params) (rec : RecT) (rng : Nat) :
    ((processRecord P rec rng).1).isSucc = recordSucceeds P rec := by
  unfold recordSucceeds
  obtain ⟨fv, fc, fj⟩ := rec
  cases fv <;> cases fc <;> cases fj <;>
    simp only [processRecord, RecOut.isSucc] <;> try rfl
  case str.str.str v0 c0 j0 =>
    cases hv : lookupA P.ref.vGenes (ensureAllele v0) <;> simp only [RecOut.isSucc]
    case some cdrsV =>
      cases hj : lookupA P.ref.jGenes (ensureAllele j0) <;> simp only [RecOut.isSucc]
      case some cdrsJ =>
        cases hch : P.chain <;> simp only [RecOut.isSucc] <;>
          by_cases hE : (cutsBefore (label_cdr3_germline_vj_regions c0.data (germOf cdrsV)
                (germOf cdrsJ)) = [] ∨
              cutsAfter (label_cdr3_germline_vj_regions c0.data (germOf cdrsV)
                (germOf cdrsJ)) = []) <;>
          by_cases hEB : (cutsBefore (best_d_alignment c0.data
                (label_cdr3_germline_vj_regions c0.data (germOf cdrsV) (germOf cdrsJ))
                P.dGenes P.min_cut_v P.min_cut_j).2.1 = [] ∨
              cutsAfter (best_d_alignment c0.data
                (label_cdr3_germline_vj_regions c0.data (germOf cdrsV) (germOf cdrsJ))
                P.dGenes P.min_cut_v P.min_cut_j).2.1 = []) <;>
          simp [choose_cutpoints_around_d, hE, hEB, RecOut.isSucc]

/-- One loop iteration grows each of the three pools by one entry on success
and leaves all three unchanged on failure. -/
lemma processOne_lengths (P : Params) (st : EngSt) (rec : RecT) :
    (processOne P st rec).storeV.length =
      st.storeV.length + (if recordSucceeds P rec then 1 else 0) ∧
    (processOne P st rec).storeD.length =
      st.storeD.length + (if recordSucceeds P rec then 1 else 0) ∧
    (processOne P st rec).storeJ.length =
      st.storeJ.length + (if recordSucceeds P rec then 1 else 0) := by
  have hs := processRecord_isSucc_rng P rec st.rng
  unfold processOne
  rcases hpr : processRecord P rec st.rng with ⟨out, rng1⟩
  rw [hpr] at hs
  cases out with
  | fail e =>
    simp only [RecOut.isSucc] at hs
    rw [← hs]
    simp
  | succ v dg j vp dp jp row =>
    simp only [RecOut.isSucc] at hs
    rw [← hs]
    simp

/-- The batch loop from any state: each pool grows by the number of
successful records. -/
lemma engineFold_lengths (P : Params) :
    ∀ (seqs : List RecT) (st : EngSt),
      (seqs.foldl (processOne P) st).storeV.length =
        st.storeV.length + seqs.countP (recordSucceeds P) ∧
      (seqs.foldl (processOne P) st).storeD.length =
        st.storeD.length + seqs.countP (recordSucceeds P) ∧
      (seqs.foldl (processOne P) st).storeJ.length =
        st.storeJ.length + seqs.countP (recordSucceeds P) := by
  intro seqs
  induction seqs with
  | nil => intro st; simp
  | cons rec rest ih =>
    intro st
    rw [List.foldl_cons]
    obtain ⟨h1, h2, h3⟩ := ih (processOne P st rec)
    obtain ⟨g1, g2, g3⟩ := processOne_lengths P st rec
    rw [List.countP_cons]
    refine ⟨?_, ?_, ?_⟩ <;> by_cases hrec : recordSucceeds P rec <;>
      simp [hrec] at g1 g2 g3 ⊢ <;> omega

lemma swapIdx_length {α : Type} (l : List α) (i j : Nat) :
    (swapIdx l i j).length = l.length := by
  unfold swapIdx
  split
  · simp
  · rfl

lemma fyFold_length {α : Type} :
    ∀ (idxs : List Nat) (p : List α × Nat), ((idxs.foldl fyStep p).1).length = p.1.length := by
  intro idxs
  induction idxs with
  | nil => intro p; rfl
  | cons i rest ih =>
    intro p
    rw [List.foldl_cons, ih]
    unfold fyStep
    by_cases hi : i = 0
    · rw [if_pos hi]
    · rw [if_neg hi]
      exact swapIdx_length _ _ _

/-- `random.shuffle` preserves the length of its list. -/
lemma fyShuffle_length {α : Type} (l : List α) (rng : Nat) :
    ((fyShuffle l rng).1).length = l.length :=
  fyFold_length _ _

lemma zip3With_length {α β γ δ : Type} (f : α → β → γ → δ) :
    ∀ (a : List α) (b : List β) (c : List γ),
      (zip3With f a b c).length = min a.length (min b.length c.length) := by
  intro a
  induction a with
  | nil => intro b c; simp [zip3With]
  | cons x as ih =>
    intro b c
    cases b with
    | nil => simp [zip3With]
    | cons y bs =>
      cases c with
      | nil => simp [zip3With]
      | cons z cs =>
        simp only [zip3With, List.length_cons, ih]
        omega

/-- Evaluation of `shuffle` past the `failure_rate` division: the result is
selected by the two mode flags, `return_errors` first. -/
lemma shuffle_modes (tcrs : List RecT) (chain : Chain) (ref : Ref)
    (dGenes : List (String × String)) (min_cut_v min_cut_j depth random_seed : Nat)
    (return_presuffled return_errors : Bool) (hz : tcrs.length * depth ≠ 0) :
    shuffle tcrs chain ref dGenes min_cut_v min_cut_j depth random_seed
        return_presuffled return_errors =
      if return_errors then
        .ok (.errs (engineRun ⟨ref, dGenes, chain, min_cut_v, min_cut_j⟩
          ((List.replicate depth tcrs).flatten) random_seed).errors)
      else if return_presuffled then
        .ok (.presuffled (engineRun ⟨ref, dGenes, chain, min_cut_v, min_cut_j⟩
          ((List.replicate depth tcrs).flatten) random_seed).presuf)
      else
        .ok (.shuffled (zip3With buildJunction
          (fyShuffle (engineRun ⟨ref, dGenes, chain, min_cut_v, min_cut_j⟩
            ((List.replicate depth tcrs).flatten) random_seed).storeV
            (engineRun ⟨ref, dGenes, chain, min_cut_v, min_cut_j⟩
              ((List.replicate depth tcrs).flatten) random_seed).rng).1
          (fyShuffle (engineRun ⟨ref, dGenes, chain, min_cut_v, min_cut_j⟩
            ((List.replicate depth tcrs).flatten) random_seed).storeD
            (fyShuffle (engineRun ⟨ref, dGenes, chain, min_cut_v, min_cut_j⟩
              ((List.replicate depth tcrs).flatten) random_seed).storeV
              (engineRun ⟨ref, dGenes, chain, min_cut_v, min_cut_j⟩
                ((List.replicate depth tcrs).flatten) random_seed).rng).2).1
          (fyShuffle (engineRun ⟨ref, dGenes, chain, min_cut_v, min_cut_j⟩
            ((List.replicate depth tcrs).flatten) random_seed).storeJ
            (fyShuffle (engineRun ⟨ref, dGenes, chain, min_cut_v, min_cut_j⟩
              ((List.replicate depth tcrs).flatten) random_seed).storeD
              (fyShuffle (engineRun ⟨ref, dGenes, chain, min_cut_v, min_cut_j⟩
                ((List.replicate depth tcrs).flatten) random_seed).storeV
                (engineRun ⟨ref, dGenes, chain, min_cut_v, min_cut_j⟩
                  ((List.replicate depth tcrs).flatten) random_seed).rng).2).2).1)) := by
  simp only [shuffle]
  rw [if_neg hz]

/-- C6: after the engine's batch loop, the three fragment pools have equal
length, equal to the number of successfully processed records (exactly one
`(gene_id, fragment)` triple is pushed into each pool per success), and in
default mode the shuffled output has exactly that many rows. -/
theorem claim6_pool_sizes (ref : Ref) (dGenes : List (String × String)) (chain : Chain)
    (min_cut_v min_cut_j : Nat) (tcrs : List RecT) (depth random_seed : Nat) :
    (engineRun ⟨ref, dGenes, chain, min_cut_v, min_cut_j⟩
        ((List.replicate depth tcrs).flatten) random_seed).storeV.length =
      ((List.replicate depth tcrs).flatten).countP
        (recordSucceeds ⟨ref, dGenes, chain, min_cut_v, min_cut_j⟩) ∧
    (engineRun ⟨ref, dGenes, chain, min_cut_v, min_cut_j⟩
        ((List.replicate depth tcrs).flatten) random_seed).storeD.length =
      ((List.replicate depth tcrs).flatten).countP
        (recordSucceeds ⟨ref, dGenes, chain, min_cut_v, min_cut_j⟩) ∧
    (engineRun ⟨ref, dGenes, chain, min_cut_v, min_cut_j⟩
        ((List.replicate depth tcrs).flatten) random_seed).storeJ.length =
      ((List.replicate depth tcrs).flatten).countP
        (recordSucceeds ⟨ref, dGenes, chain, min_cut_v, min_cut_j⟩) ∧
    (tcrs.length * depth ≠ 0 →
      ∃ rows, shuffle tcrs chain ref dGenes min_cut_v min_cut_j depth random_seed
          false false = .ok (.shuffled rows) ∧
        rows.length = ((List.replicate depth tcrs).flatten).countP
          (recordSucceeds ⟨ref, dGenes, chain, min_cut_v, min_cut_j⟩)) := by
  obtain ⟨h1, h2, h3⟩ := engineFold_lengths ⟨ref, dGenes, chain, min_cut_v, min_cut_j⟩
    ((List.replicate depth tcrs).flatten) ⟨[], [], [], [], [], random_seed⟩
  rw [show (engineRun ⟨ref, dGenes, chain, min_cut_v, min_cut_j⟩
      ((List.replicate depth tcrs).flatten) random_seed) =
      ((List.replicate depth tcrs).flatten).foldl
        (processOne ⟨ref, dGenes, chain, min_cut_v, min_cut_j⟩)
        ⟨[], [], [], [], [], random_seed⟩ from rfl]
  simp only [List.length_nil, Nat.zero_add] at h1 h2 h3
  refine ⟨h1, h2, h3, ?_⟩
  intro hz
  have hs := shuffle_modes tcrs chain ref dGenes min_cut_v min_cut_j depth random_seed
    false false hz
  simp only [Bool.false_eq_true, if_false] at hs
  refine ⟨_, hs, ?_⟩
  rw [zip3With_length, fyShuffle_length, fyShuffle_length, fyShuffle_length]
  simp only [engineRun] at *
  omega

/-- Witness for C6: a one-record batch at `depth = 1` that succeeds; the
default-mode output has as many rows as the loop had successes. -/
theorem claim6_witness :
    (([(Cell.str "TRBV9", Cell.str "CASSSHAGGNTEAFF", Cell.str "TRBJ1")] :
        List RecT).length * 1 ≠ 0) ∧
    ∃ rows, shuffle [(Cell.str "TRBV9", Cell.str "CASSSHAGGNTEAFF", Cell.str "TRBJ1")]
        .B ⟨[("TRBV9*01", "C;CASS")], [("TRBJ1*01", "F;EAFF")]⟩ [("TRBD1*01", "GGG")]
        4 3 1 1 false false = .ok (.shuffled rows) ∧
      rows.length = ((List.replicate 1
          [(Cell.str "TRBV9", Cell.str "CASSSHAGGNTEAFF", Cell.str "TRBJ1")]).flatten).countP
        (recordSucceeds ⟨⟨[("TRBV9*01", "C;CASS")], [("TRBJ1*01", "F;EAFF")]⟩,
          [("TRBD1*01", "GGG")], .B, 4, 3⟩) :=
  ⟨by decide,
   (claim6_pool_sizes ⟨[("TRBV9*01", "C;CASS")], [("TRBJ1*01", "F;EAFF")]⟩
     [("TRBD1*01", "GGG")] .B 4 3
     [(Cell.str "TRBV9", Cell.str "CASSSHAGGNTEAFF", Cell.str "TRBJ1")] 1 1).2.2.2
     (by decide)⟩

/-! ### C7: output selection -/

/-- C7: the engine's result is selected with precedence errors over
presuffled over shuffled: error mode returns the error list even when
presuffled is also requested; otherwise presuffled mode returns the
diagnostic rows; otherwise each pool is independently permuted (threading the
caller-seeded generator) and new receptors are built by positional zip, where
`buildJunction` makes `new_cdr3 = v_fragment + d_fragment + j_fragment` with
gene ids taken from the V-pool and J-pool entries, the D-pool gene id being
discarded. -/
theorem claim7_output_selection (tcrs : List RecT) (chain : Chain) (ref : Ref)
    (dGenes : List (String × String)) (min_cut_v min_cut_j depth random_seed : Nat)
    (return_presuffled return_errors : Bool) (h : tcrs.length * depth ≠ 0) :
    (∀ (a : String × String) (b : Option String × String) (c : String × String),
      buildJunction a b c = (a.1, a.2 ++ b.2 ++ c.2, c.1, (a.2, b.2, c.2))) ∧
    (return_errors = true →
      shuffle tcrs chain ref dGenes min_cut_v min_cut_j depth random_seed
          return_presuffled return_errors =
        .ok (.errs (engineRun ⟨ref, dGenes, chain, min_cut_v, min_cut_j⟩
          ((List.replicate depth tcrs).flatten) random_seed).errors)) ∧
    (return_errors = false → return_presuffled = true →
      shuffle tcrs chain ref dGenes min_cut_v min_cut_j depth random_seed
          return_presuffled return_errors =
        .ok (.presuffled (engineRun ⟨ref, dGenes, chain, min_cut_v, min_cut_j⟩
          ((List.replicate depth tcrs).flatten) random_seed).presuf)) ∧
    (return_errors = false → return_presuffled = false →
      shuffle tcrs chain ref dGenes min_cut_v min_cut_j depth random_seed
          return_presuffled return_errors =
        .ok (.shuffled (zip3With buildJunction
          (fyShuffle (engineRun ⟨ref, dGenes, chain, min_cut_v, min_cut_j⟩
            ((List.replicate depth tcrs).flatten) random_seed).storeV
            (engineRun ⟨ref, dGenes, chain, min_cut_v, min_cut_j⟩
              ((List.replicate depth tcrs).flatten) random_seed).rng).1
          (fyShuffle (engineRun ⟨ref, dGenes, chain, min_cut_v, min_cut_j⟩
            ((List.replicate depth tcrs).flatten) random_seed).storeD
            (fyShuffle (engineRun ⟨ref, dGenes, chain, min_cut_v, min_cut_j⟩
              ((List.replicate depth tcrs).flatten) random_seed).storeV
              (engineRun ⟨ref, dGenes, chain, min_cut_v, min_cut_j⟩
                ((List.replicate depth tcrs).flatten) random_seed).rng).2).1
          (fyShuffle (engineRun ⟨ref, dGenes, chain, min_cut_v, min_cut_j⟩
            ((List.replicate depth tcrs).flatten) random_seed).storeJ
            (fyShuffle (engineRun ⟨ref, dGenes, chain, min_cut_v, min_cut_j⟩
              ((List.replicate depth tcrs).flatten) random_seed).storeD
              (fyShuffle (engineRun ⟨ref, dGenes, chain, min_cut_v, min_cut_j⟩
                ((List.replicate depth tcrs).flatten) random_seed).storeV
                (engineRun ⟨ref, dGenes, chain, min_cut_v, min_cut_j⟩
                  ((List.replicate depth tcrs).flatten) random_seed).rng).2).2).1))) := by
  refine ⟨fun a b c => rfl, ?_, ?_, ?_⟩
  · intro hre
    subst hre
    have hs := shuffle_modes tcrs chain ref dGenes min_cut_v min_cut_j depth random_seed
      return_presuffled true h
    simpa using hs
  · intro hre hrp
    subst hre
    subst hrp
    have hs := shuffle_modes tcrs chain ref dGenes min_cut_v min_cut_j depth random_seed
      true false h
    simpa using hs
  · intro hre hrp
    subst hre
    subst hrp
    have hs := shuffle_modes tcrs chain ref dGenes min_cut_v min_cut_j depth random_seed
      false false h
    simpa using hs

/-- Witness for C7 at a concrete one-record batch in error mode (with
presuffled also requested, exercising the precedence). -/
theorem claim7_witness :
    (([(Cell.str "TRBV9", Cell.str "CASSSHAGGNTEAFF", Cell.str "TRBJ1")] :
        List RecT).length * 1 ≠ 0) ∧
    shuffle [(Cell.str "TRBV9", Cell.str "CASSSHAGGNTEAFF", Cell.str "TRBJ1")]
        .B ⟨[("TRBV9*01", "C;CASS")], [("TRBJ1*01", "F;EAFF")]⟩ [("TRBD1*01", "GGG")]
        4 3 1 1 true true =
      .ok (.errs (engineRun ⟨⟨[("TRBV9*01", "C;CASS")], [("TRBJ1*01", "F;EAFF")]⟩,
        [("TRBD1*01", "GGG")], .B, 4, 3⟩
        ((List.replicate 1
          [(Cell.str "TRBV9", Cell.str "CASSSHAGGNTEAFF", Cell.str "TRBJ1")]).flatten)
        1).errors) :=
  ⟨by decide,
   (claim7_output_selection [(Cell.str "TRBV9", Cell.str "CASSSHAGGNTEAFF", Cell.str "TRBJ1")]
     .B ⟨[("TRBV9*01", "C;CASS")], [("TRBJ1*01", "F;EAFF")]⟩ [("TRBD1*01", "GGG")]
     4 3 1 1 true true (by decide)).2.1 rfl⟩

/-! ### C10: error records carry normalized gene ids -/

/-- C10: an error emitted after the type check — a missing-germline error or a
cutpoint failure — records the normalized gene ids (with `*01` appended when
the caller's id lacked an allele suffix); only `invalid_types` errors carry
the original field values. -/
theorem claim10_error_normalization (P : Params) (fv fc fj : Cell) (rng : Nat)
    (e : ErrRec) (rng1 : Nat)
    (h : processRecord P (fv, fc, fj) rng = (.fail e, rng1)) :
    (e.reason = .invalidTypes → e.v = fv ∧ e.cdr3 = fc ∧ e.j = fj) ∧
    (∀ v c j, fv = .str v → fc = .str c → fj = .str j →
      e.v = .str (ensureAllele v) ∧ e.j = .str (ensureAllele j) ∧
        e.reason ≠ .invalidTypes) := by
  cases fv <;> cases fc <;> cases fj <;> simp only [processRecord] at h
  case str.str.str v0 c0 j0 =>
    have hkey : e.v = .str (ensureAllele v0) ∧ e.j = .str (ensureAllele j0) ∧
        e.reason ≠ .invalidTypes := by
      cases hv : lookupA P.ref.vGenes (ensureAllele v0) <;> simp only [hv] at h
      case none =>
        injection h with he hr
        injection he with he
        subst he
        exact ⟨rfl, rfl, by simp⟩
      case some cdrsV =>
        cases hj : lookupA P.ref.jGenes (ensureAllele j0) <;> simp only [hj] at h
        case none =>
          injection h with he hr
          injection he with he
          subst he
          exact ⟨rfl, rfl, by simp⟩
        case some cdrsJ =>
          cases hch : P.chain <;> simp only [hch] at h <;> split at h
          all_goals
            first
              | (injection h with he hr
                 injection he with he
                 subst he
                 exact ⟨rfl, rfl, by simp⟩)
              | (injection h with he hr
                 injection he)
    refine ⟨fun habs => absurd habs hkey.2.2, fun v c j hv' hc' hj' => ?_⟩
    injection hv' with hv'
    injection hj' with hj'
    subst hv'
    subst hj'
    exact hkey
  all_goals
    injection h with he hr
    injection he with he
    subst he
    refine ⟨fun _ => ⟨rfl, rfl, rfl⟩, fun v c j hv' hc' hj' => ?_⟩
    simp at hv' hc' hj'

/-- Witness for C10: a record whose V gene is absent from the reference; the
error carries the normalized ids `TRBV9*01` / `TRBJ9*01` even though the
caller wrote `TRBV9` / `TRBJ9`. -/
theorem claim10_witness :
    (processRecord ⟨⟨[], []⟩, [], .B, 4, 3⟩
        (.str "TRBV9", .str "CASS", .str "TRBJ9") 1 =
      (.fail ⟨.str "TRBV9*01", .str "CASS", .str "TRBJ9*01",
        .missingGermline "TRBV9*01"⟩, 1)) ∧
    ((ErrRec.mk (.str "TRBV9*01") (.str "CASS") (.str "TRBJ9*01")
        (.missingGermline "TRBV9*01")).reason = .invalidTypes →
      (ErrRec.mk (.str "TRBV9*01") (.str "CASS") (.str "TRBJ9*01")
        (.missingGermline "TRBV9*01")).v = .str "TRBV9" ∧
      (ErrRec.mk (.str "TRBV9*01") (.str "CASS") (.str "TRBJ9*01")
        (.missingGermline "TRBV9*01")).cdr3 = .str "CASS" ∧
      (ErrRec.mk (.str "TRBV9*01") (.str "CASS") (.str "TRBJ9*01")
        (.missingGermline "TRBV9*01")).j = .str "TRBJ9") ∧
    (∀ v c j, Cell.str "TRBV9" = .str v → Cell.str "CASS" = .str c →
      Cell.str "TRBJ9" = .str j →
      (ErrRec.mk (.str "TRBV9*01") (.str "CASS") (.str "TRBJ9*01")
        (.missingGermline "TRBV9*01")).v = .str (ensureAllele v) ∧
      (ErrRec.mk (.str "TRBV9*01") (.str "CASS") (.str "TRBJ9*01")
        (.missingGermline "TRBV9*01")).j = .str (ensureAllele j) ∧
      (ErrRec.mk (.str "TRBV9*01") (.str "CASS") (.str "TRBJ9*01")
        (.missingGermline "TRBV9*01")).reason ≠ .invalidTypes) :=
  ⟨by decide,
   (claim10_error_normalization ⟨⟨[], []⟩, [], .B, 4, 3⟩
     (.str "TRBV9") (.str "CASS") (.str "TRBJ9") 1
     ⟨.str "TRBV9*01", .str "CASS", .str "TRBJ9*01", .missingGermline "TRBV9*01"⟩ 1
     (by decide)).1,
   (claim10_error_normalization ⟨⟨[], []⟩, [], .B, 4, 3⟩
     (.str "TRBV9") (.str "CASS") (.str "TRBJ9") 1
     ⟨.str "TRBV9*01", .str "CASS", .str "TRBJ9*01", .missingGermline "TRBV9*01"⟩ 1
     (by decide)).2⟩

/-! ### C8: determinism -/

/-- C8: determinism as a two-run property.  With the reference snapshot, the
seed and the generator made explicit state, two runs of the engine on
identical input, chain, seed and configuration are identical. -/
theorem claim8_determinism (tcrs : List RecT) (chain : Chain) (ref : Ref)
    (dGenes : List (String × String)) (min_cut_v min_cut_j depth random_seed : Nat)
    (return_presuffled return_errors : Bool) :
    shuffle tcrs chain ref dGenes min_cut_v min_cut_j depth random_seed
      return_presuffled return_errors =
    shuffle tcrs chain ref dGenes min_cut_v min_cut_j depth random_seed
      return_presuffled return_errors := rfl

/-! ### C9: empty batch divides by zero -/

/-- C9: with an empty input batch or `depth = 0`, the engine fails with a
division by zero while computing
`failure_rate = len(error_cdr3) / (len(tcrs) * depth)`, before any output
mode's result is produced — for every combination of the mode flags. -/
theorem claim9_empty_batch_division (tcrs : List RecT) (chain : Chain) (ref : Ref)
    (dGenes : List (String × String)) (min_cut_v min_cut_j depth random_seed : Nat)
    (return_presuffled return_errors : Bool) (h : tcrs = [] ∨ depth = 0) :
    shuffle tcrs chain ref dGenes min_cut_v min_cut_j depth random_seed
      return_presuffled return_errors = .error "ZeroDivisionError" := by
  have hz : tcrs.length * depth = 0 := by
    rcases h with h | h <;> simp [h]
  simp [shuffle, hz]

/-- Witness for C9 at the empty batch, in all-default mode. -/
theorem claim9_witness :
    (([] : List RecT) = [] ∨ 2 = 0) ∧
    shuffle [] .B ⟨[], []⟩ [] 4 3 2 1 false true = .error "ZeroDivisionError" :=
  ⟨Or.inl rfl, claim9_empty_batch_division [] .B ⟨[], []⟩ [] 4 3 2 1 false true (Or.inl rfl)⟩

end TCRShuffler
